import Mathlib

/-!
Shallow embedding of the packstream codec and chunked transport of the
neo4j-rust-driver repository, together with theorems settling the frozen
claims about its specification.

Bytes are modelled as natural numbers below 256 and byte buffers as
`List Nat`.  Machine integers are modelled as `Int`/`Nat` with explicit
two's-complement reduction where the source casts.  Fallible operations
return `Except`.
-/

namespace Packstream

/-- Big-endian byte string of width `w` of `n` (reduced modulo `256 ^ w`),
modelling the `byteorder` crate's `write_uNN::<BigEndian>` /
`write_iNN::<BigEndian>` family on an in-memory buffer. -/
def toBytesBE : Nat → Nat → List Nat
  | 0, _ => []
  | w + 1, n => toBytesBE w (n / 256) ++ [n % 256]

/-- Big-endian interpretation of a byte string, modelling
`read_uNN::<BigEndian>`. -/
def fromBytesBE (bs : List Nat) : Nat :=
  bs.foldl (fun acc b => acc * 256 + b) 0

theorem toBytesBE_length (w n : Nat) : (toBytesBE w n).length = w := by
  induction w generalizing n with
  | zero => rfl
  | succ w ih => simp [toBytesBE, ih]

theorem fromBytesBE_append_singleton (bs : List Nat) (b : Nat) :
    fromBytesBE (bs ++ [b]) = fromBytesBE bs * 256 + b := by
  simp [fromBytesBE]

theorem fromBytesBE_toBytesBE (w n : Nat) :
    fromBytesBE (toBytesBE w n) = n % 256 ^ w := by
  induction w generalizing n with
  | zero => simp [toBytesBE, fromBytesBE, Nat.mod_one]
  | succ w ih =>
    rw [toBytesBE, fromBytesBE_append_singleton, ih]
    have hmod : n % 256 ^ (w + 1) = n % 256 + 256 * (n / 256 % 256 ^ w) := by
      have h2 : 256 ^ (w + 1) = 256 * 256 ^ w := by ring
      rw [h2, Nat.mod_mul]
    omega

/-! ## Marker table (src/v1/packstream/marker.rs) -/

namespace marker

def NULL : Nat := 0xC0
def TRUE : Nat := 0xC3
def FALSE : Nat := 0xC2

def INT_8 : Nat := 0xC8
def INT_16 : Nat := 0xC9
def INT_32 : Nat := 0xCA
def INT_64 : Nat := 0xCB

def RANGE_POS_INT_64 : Int × Int := (2147483648, 9223372036854775807)
def RANGE_POS_INT_32 : Int × Int := (32768, 2147483647)
def RANGE_POS_INT_16 : Int × Int := (128, 32767)
def RANGE_TINY_INT : Int × Int := (-16, 127)
def RANGE_NEG_INT_8 : Int × Int := (-128, -17)
def RANGE_NEG_INT_16 : Int × Int := (-32768, -129)
def RANGE_NEG_INT_32 : Int × Int := (-2147483648, -32769)
def RANGE_NEG_INT_64 : Int × Int := (-9223372036854775808, -2147483649)

def FLOAT : Nat := 0xC1

def TINY_STRING_NIBBLE : Nat := 0x80
def STRING_8 : Nat := 0xD0
def STRING_16 : Nat := 0xD1
def STRING_32 : Nat := 0xD2
def USE_TINY_STRING : Nat := 15
def USE_STRING_8 : Nat := 255
def USE_STRING_16 : Nat := 65535
def USE_STRING_32 : Nat := 4294967295

def TINY_LIST_NIBBLE : Nat := 0x90
def LIST_8 : Nat := 0xD4
def LIST_16 : Nat := 0xD5
def LIST_32 : Nat := 0xD6
def USE_TINY_LIST : Nat := 15
def USE_LIST_8 : Nat := 255
def USE_LIST_16 : Nat := 65535
def USE_LIST_32 : Nat := 4294967295

def TINY_MAP_NIBBLE : Nat := 0xA0
def MAP_8 : Nat := 0xD8
def MAP_16 : Nat := 0xD9
def MAP_32 : Nat := 0xDA
def USE_TINY_MAP : Nat := 15
def USE_MAP_8 : Nat := 255
def USE_MAP_16 : Nat := 65535
def USE_MAP_32 : Nat := 4294967295

def TINY_STRUCT_NIBBLE : Nat := 0xB0
def STRUCT_8 : Nat := 0xDC
def STRUCT_16 : Nat := 0xDD
def USE_TINY_STRUCT : Nat := 15
def USE_STRUCT_8 : Nat := 255
def USE_STRUCT_16 : Nat := 65535

end marker

/-! ## Integer encoding (Serializer::serialize_i64 / PackstreamEncoder::emit_i64
and Serializer::serialize_u64 / PackstreamEncoder::emit_u64) -/

/-- Two's-complement big-endian byte string of width `w` of a signed value,
modelling `write_iNN::<BigEndian>` after the source's `as iNN` cast. -/
def sbytes (w : Nat) (v : Int) : List Nat :=
  toBytesBE w (v % (2:Int) ^ (8 * w)).toNat

theorem sbytes_length (w : Nat) (v : Int) : (sbytes w v).length = w :=
  toBytesBE_length w _

/-- Model of `Serializer::serialize_i64` (src/v1/packstream/serialize/mod.rs lines
125-149), identical to `PackstreamEncoder::emit_i64` (serialize.rs lines
102-126): the tier ranges are tested widest first; the value after each
marker is written as a two's-complement big-endian string of the tier
width.  A value outside every range (impossible for an i64) writes
nothing. -/
def emit_i64 (v : Int) : List Nat :=
  if (v ≥ marker.RANGE_POS_INT_64.1 ∧ v ≤ marker.RANGE_POS_INT_64.2)
      ∨ (v ≥ marker.RANGE_NEG_INT_64.1 ∧ v ≤ marker.RANGE_NEG_INT_64.2) then
    marker.INT_64 :: sbytes 8 v
  else if (v ≥ marker.RANGE_POS_INT_32.1 ∧ v ≤ marker.RANGE_POS_INT_32.2)
      ∨ (v ≥ marker.RANGE_NEG_INT_32.1 ∧ v ≤ marker.RANGE_NEG_INT_32.2) then
    marker.INT_32 :: sbytes 4 v
  else if (v ≥ marker.RANGE_POS_INT_16.1 ∧ v ≤ marker.RANGE_POS_INT_16.2)
      ∨ (v ≥ marker.RANGE_NEG_INT_16.1 ∧ v ≤ marker.RANGE_NEG_INT_16.2) then
    marker.INT_16 :: sbytes 2 v
  else if v ≥ marker.RANGE_TINY_INT.1 ∧ v ≤ marker.RANGE_TINY_INT.2 then
    sbytes 1 v
  else if v ≥ marker.RANGE_NEG_INT_8.1 ∧ v ≤ marker.RANGE_NEG_INT_8.2 then
    marker.INT_8 :: sbytes 1 v
  else
    []

/-- Model of `Serializer::serialize_u64` (src/v1/packstream/serialize/mod.rs lines
172-187), identical to `PackstreamEncoder::emit_u64` (serialize.rs lines
69-84).  All range constants are the signed ones reinterpreted `as u64`;
there is no final `else`, so a value above `i64::MAX` writes nothing and
the function still succeeds. -/
def emit_u64 (v : Nat) : List Nat :=
  if 2147483648 ≤ v ∧ v ≤ 9223372036854775807 then
    marker.INT_64 :: toBytesBE 8 v
  else if 32768 ≤ v ∧ v ≤ 2147483647 then
    marker.INT_32 :: toBytesBE 4 v
  else if 128 ≤ v ∧ v ≤ 32767 then
    marker.INT_16 :: toBytesBE 2 v
  else if v ≤ 127 then
    [v % 256]
  else
    []

/-! ## Integer decoding (Deserializer::parse_int, deserialize/mod.rs lines
154-179, with the marker predicates of deserialize/types.rs) -/

def is_tiny_int_pos (b : Nat) : Bool := b >>> 7 == 0
def is_tiny_int_neg (b : Nat) : Bool := b >>> 4 == 0xF0 >>> 4
def is_tiny_int (b : Nat) : Bool := is_tiny_int_pos b || is_tiny_int_neg b

/-- Model of `read_tiny_int`: a positive tiny int is the byte itself; a negative one
is `(b | 0xF0) as i8`, i.e. `b - 256` for `b` in `0xF0..=0xFF`. -/
def read_tiny_int (b : Nat) : Int :=
  if is_tiny_int_pos b then (b : Int) else (b : Int) - 256

def is_int8_or_lesser (b : Nat) : Bool := b == marker.INT_8 || is_tiny_int b
def is_int16_or_lesser (b : Nat) : Bool := b == marker.INT_16 || is_int8_or_lesser b
def is_int32_or_lesser (b : Nat) : Bool := b == marker.INT_32 || is_int16_or_lesser b
def is_int64_or_lesser (b : Nat) : Bool := b == marker.INT_64 || is_int32_or_lesser b

/-- Decode errors of the serde-path deserializer
(src/v1/packstream/deserialize/error.rs).  `Panic` is not an error of the
source: it marks the places where the Rust code would panic (an
`unreachable!()` arm), so that "never panics" claims can be stated. -/
inductive DecErr where
  | UnexpectedMarker : String → String → DecErr
  | UnexpectedInput : String → String → DecErr
  | UnexpectedType : String → DecErr
  | UnexpectedEOF : DecErr
  | InvalidUTF8 : DecErr
  | Panic : DecErr
deriving DecidableEq, Repr

/-- Model of `read_iNN::<BigEndian>`: take `w` bytes, reinterpret the big-endian
unsigned value as two's complement. -/
def readSignedBE (w : Nat) (bs : List Nat) : Except DecErr (Int × List Nat) :=
  if w ≤ bs.length then
    let n := fromBytesBE (bs.take w)
    let val : Int := if n < 2 ^ (8 * w - 1) then (n : Int) else (n : Int) - (2:Int) ^ (8 * w)
    .ok (val, bs.drop w)
  else
    .error .UnexpectedEOF

/-- Model of `Deserializer::parse_int`: read the marker byte, reject non-integer
markers, then read the payload of the width selected by the marker. -/
def parse_int (bs : List Nat) : Except DecErr (Int × List Nat) :=
  match bs with
  | [] => .error .UnexpectedEOF
  | m :: rest =>
    if !is_int64_or_lesser m then .error (.UnexpectedType "Integer")
    else if is_tiny_int m then .ok (read_tiny_int m, rest)
    else if m = marker.INT_8 then readSignedBE 1 rest
    else if m = marker.INT_16 then readSignedBE 2 rest
    else if m = marker.INT_32 then readSignedBE 4 rest
    else readSignedBE 8 rest

/-! ## Integer round-trip lemmas -/

theorem two_pow_eight_mul (w : Nat) : (256:Nat) ^ w = 2 ^ (8 * w) := by
  rw [show (256:Nat) = 2 ^ 8 by norm_num, ← pow_mul]

theorem twos_complement_decode (w : Nat) (hw : 0 < w) (v : Int)
    (hlo : -(2:Int) ^ (8 * w - 1) ≤ v) (hhi : v < (2:Int) ^ (8 * w - 1)) :
    (if (v % (2:Int) ^ (8 * w)).toNat < 2 ^ (8 * w - 1)
     then (((v % (2:Int) ^ (8 * w)).toNat : Nat) : Int)
     else (((v % (2:Int) ^ (8 * w)).toNat : Nat) : Int) - (2:Int) ^ (8 * w)) = v := by
  have hk : 8 * w = (8 * w - 1) + 1 := by omega
  have hM : (2:Int) ^ (8 * w) = 2 * 2 ^ (8 * w - 1) := by
    conv_lhs => rw [hk]
    rw [pow_succ]; ring
  have hcast : (((2:Nat) ^ (8 * w - 1) : Nat) : Int) = (2:Int) ^ (8 * w - 1) := by
    push_cast; ring
  have hHpos : (0:Int) < 2 ^ (8 * w - 1) := by positivity
  rcases le_or_lt 0 v with hv | hv
  · have hemod : v % (2:Int) ^ (8 * w) = v := by
      apply Int.emod_eq_of_lt hv; omega
    rw [hemod]
    split_ifs with h
    · omega
    · omega
  · have hemod : v % (2:Int) ^ (8 * w) = v + 2 * 2 ^ (8 * w - 1) := by
      rw [hM]
      have hself := Int.add_mul_emod_self_left (a := v) (b := 2 * 2 ^ (8 * w - 1)) (c := 1)
      rw [mul_one] at hself
      rw [← hself]
      apply Int.emod_eq_of_lt <;> omega
    rw [hemod]
    split_ifs with h
    · omega
    · omega

theorem sbytes_value_lt (w : Nat) (v : Int) :
    (v % (2:Int) ^ (8 * w)).toNat < 2 ^ (8 * w) := by
  have hpos : (0:Int) < (2:Int) ^ (8 * w) := by positivity
  have h1 : 0 ≤ v % (2:Int) ^ (8 * w) := Int.emod_nonneg v (by positivity)
  have h2 : v % (2:Int) ^ (8 * w) < (2:Int) ^ (8 * w) := Int.emod_lt_of_pos v hpos
  have hcast : (((2:Nat) ^ (8 * w) : Nat) : Int) = (2:Int) ^ (8 * w) := by push_cast; ring
  omega

theorem readSignedBE_sbytes (w : Nat) (hw : 0 < w) (v : Int) (rest : List Nat)
    (hlo : -(2:Int) ^ (8 * w - 1) ≤ v) (hhi : v < (2:Int) ^ (8 * w - 1)) :
    readSignedBE w (sbytes w v ++ rest) = .ok (v, rest) := by
  have hlen : (sbytes w v).length = w := sbytes_length w v
  have htake : (sbytes w v ++ rest).take w = sbytes w v := by
    rw [List.take_left' hlen]
  have hdrop : (sbytes w v ++ rest).drop w = rest := by
    rw [List.drop_left' hlen]
  have hfrom : fromBytesBE (sbytes w v) = (v % (2:Int) ^ (8 * w)).toNat := by
    rw [sbytes, fromBytesBE_toBytesBE, two_pow_eight_mul]
    exact Nat.mod_eq_of_lt (sbytes_value_lt w v)
  rw [readSignedBE, if_pos (by simp [hlen])]
  simp only [htake, hdrop, hfrom]
  rw [twos_complement_decode w hw v hlo hhi]

theorem parse_int_cons_int8 (bs : List Nat) :
    parse_int (marker.INT_8 :: bs) = readSignedBE 1 bs := rfl

theorem parse_int_cons_int16 (bs : List Nat) :
    parse_int (marker.INT_16 :: bs) = readSignedBE 2 bs := rfl

theorem parse_int_cons_int32 (bs : List Nat) :
    parse_int (marker.INT_32 :: bs) = readSignedBE 4 bs := rfl

theorem parse_int_cons_int64 (bs : List Nat) :
    parse_int (marker.INT_64 :: bs) = readSignedBE 8 bs := rfl

theorem parse_int_tiny (v : Int) (h1 : -16 ≤ v) (h2 : v ≤ 127) (rest : List Nat) :
    parse_int (sbytes 1 v ++ rest) = .ok (v, rest) := by
  have h256 : (2:Int) ^ (8 * 1) = 256 := by norm_num
  have hmod : 0 ≤ v % (2:Int) ^ (8 * 1) := Int.emod_nonneg v (by norm_num)
  have hmlt : v % (2:Int) ^ (8 * 1) < 256 := by
    rw [h256]; exact Int.emod_lt_of_pos v (by norm_num)
  set b := (v % (2:Int) ^ (8 * 1)).toNat with hbdef
  have hsb : sbytes 1 v = [b] := by
    rw [sbytes]
    show toBytesBE 1 b = [b]
    rw [toBytesBE, toBytesBE]
    simp [Nat.mod_eq_of_lt (show b < 256 by omega)]
  rw [hsb]
  rcases le_or_lt 0 v with hv | hv
  · have hemod : v % (2:Int) ^ (8 * 1) = v := by
      rw [h256]; exact Int.emod_eq_of_lt hv (by omega)
    have hb : (b : Int) = v := by rw [hbdef, hemod]; omega
    have hpos : is_tiny_int_pos b = true := by
      simp [is_tiny_int_pos, Nat.shiftRight_eq_div_pow]; omega
    simp [parse_int, is_int64_or_lesser, is_int32_or_lesser, is_int16_or_lesser,
          is_int8_or_lesser, is_tiny_int, hpos, read_tiny_int, hb]
  · have hemod : v % (2:Int) ^ (8 * 1) = v + 256 := by
      rw [h256]
      have hself := Int.add_mul_emod_self_left (a := v) (b := (256:Int)) (c := 1)
      rw [mul_one] at hself
      rw [← hself]
      exact Int.emod_eq_of_lt (by omega) (by omega)
    have hb : (b : Int) = v + 256 := by rw [hbdef, hemod]; omega
    have hpos : is_tiny_int_pos b = false := by
      simp [is_tiny_int_pos, Nat.shiftRight_eq_div_pow]; omega
    have hneg : is_tiny_int_neg b = true := by
      simp [is_tiny_int_neg, Nat.shiftRight_eq_div_pow]; omega
    simp [parse_int, is_int64_or_lesser, is_int32_or_lesser, is_int16_or_lesser,
          is_int8_or_lesser, is_tiny_int, hpos, hneg, read_tiny_int]
    omega

/-- Following the spec's words (not the source): the byte length of the
narrowest packstream tier that represents a signed 64-bit value: 1 byte for
tiny ints, 2 for INT_8, 3 for INT_16, 5 for INT_32, 9 for INT_64. -/
def specNarrowestIntLength (v : Int) : Nat :=
  if -16 ≤ v ∧ v ≤ 127 then 1
  else if -128 ≤ v ∧ v ≤ -17 then 2
  else if -32768 ≤ v ∧ v ≤ 32767 then 3
  else if -2147483648 ≤ v ∧ v ≤ 2147483647 then 5
  else 9

/-- C3: for every i64 value the encoder's strict widest-to-narrowest range
tests produce the narrowest fitting encoding (the byte count equals the
narrowest-tier length of the spec), the encoding decodes back to the same
value (so it is a unique canonical encoding), and the spec's concrete
examples hold: serialize(1) = [0x01], serialize(-1) = [0xFF],
serialize(32767) = [0xC9, 0x7F, 0xFF], and serialize(i64::MAX) =
[0xCB, 0x7F, 0xFF, 0xFF, 0xFF, 0xFF, 0xFF, 0xFF, 0xFF]. -/
theorem claim_C3 (v : Int)
    (h1 : -9223372036854775808 ≤ v) (h2 : v ≤ 9223372036854775807) :
    (emit_i64 v).length = specNarrowestIntLength v
    ∧ (∀ rest, parse_int (emit_i64 v ++ rest) = .ok (v, rest))
    ∧ emit_i64 1 = [0x01]
    ∧ emit_i64 (-1) = [0xFF]
    ∧ emit_i64 32767 = [0xC9, 0x7F, 0xFF]
    ∧ emit_i64 9223372036854775807
        = [0xCB, 0x7F, 0xFF, 0xFF, 0xFF, 0xFF, 0xFF, 0xFF, 0xFF] := by
  refine ⟨?_, ?_, by decide, by decide, by decide, by decide⟩
  · simp only [emit_i64, specNarrowestIntLength, marker.RANGE_POS_INT_64,
      marker.RANGE_NEG_INT_64, marker.RANGE_POS_INT_32, marker.RANGE_NEG_INT_32,
      marker.RANGE_POS_INT_16, marker.RANGE_NEG_INT_16, marker.RANGE_TINY_INT,
      marker.RANGE_NEG_INT_8]
    split_ifs <;> simp_all [sbytes_length] <;> omega
  · intro rest
    simp only [emit_i64, marker.RANGE_POS_INT_64,
      marker.RANGE_NEG_INT_64, marker.RANGE_POS_INT_32, marker.RANGE_NEG_INT_32,
      marker.RANGE_POS_INT_16, marker.RANGE_NEG_INT_16, marker.RANGE_TINY_INT,
      marker.RANGE_NEG_INT_8]
    split_ifs with h64 h32 h16 htiny h8
    · rw [List.cons_append, parse_int_cons_int64]
      refine readSignedBE_sbytes 8 (by norm_num) v rest ?_ ?_ <;> · norm_num; omega
    · rw [List.cons_append, parse_int_cons_int32]
      refine readSignedBE_sbytes 4 (by norm_num) v rest ?_ ?_ <;> · norm_num; omega
    · rw [List.cons_append, parse_int_cons_int16]
      refine readSignedBE_sbytes 2 (by norm_num) v rest ?_ ?_ <;> · norm_num; omega
    · exact parse_int_tiny v (by omega) (by omega) rest
    · rw [List.cons_append, parse_int_cons_int8]
      refine readSignedBE_sbytes 1 (by norm_num) v rest ?_ ?_ <;> · norm_num; omega
    · omega

theorem claim_C3_witness :
    (-9223372036854775808 ≤ (300:Int) ∧ (300:Int) ≤ 9223372036854775807)
    ∧ ((emit_i64 300).length = specNarrowestIntLength 300
       ∧ (∀ rest, parse_int (emit_i64 300 ++ rest) = .ok (300, rest))
       ∧ emit_i64 1 = [0x01]
       ∧ emit_i64 (-1) = [0xFF]
       ∧ emit_i64 32767 = [0xC9, 0x7F, 0xFF]
       ∧ emit_i64 9223372036854775807
           = [0xCB, 0x7F, 0xFF, 0xFF, 0xFF, 0xFF, 0xFF, 0xFF, 0xFF]) :=
  ⟨⟨by decide, by decide⟩, claim_C3 300 (by decide) (by decide)⟩

/-- C10: an unsigned value strictly above i64::MAX falls through every tier
test of `serialize_u64` / `emit_u64`: no bytes are emitted and the encoder
still succeeds, silently dropping the value. -/
theorem claim_C10 (v : Nat) (h : 9223372036854775807 < v) : emit_u64 v = [] := by
  unfold emit_u64
  split_ifs <;> first | omega | rfl

theorem claim_C10_witness :
    9223372036854775807 < 9223372036854775808
    ∧ emit_u64 9223372036854775808 = [] :=
  ⟨by decide, claim_C10 9223372036854775808 (by decide)⟩

/-! ## String, list and map size tiers (Serializer::serialize_str,
serialize_seq, serialize_map in src/v1/packstream/serialize/mod.rs; the
same tier logic appears in PackstreamEncoder::emit_str / emit_seq /
emit_map in serialize.rs) -/

/-- Model of `Serializer::serialize_str` on the UTF-8 bytes of the string: narrowest
tier header by byte count, then the raw bytes.  A length above the 32-bit
tier writes no header but still writes the bytes, as in the source. -/
def emit_str (s : List Nat) : List Nat :=
  (if s.length ≤ marker.USE_TINY_STRING then
     [marker.TINY_STRING_NIBBLE ||| s.length % 256]
   else if s.length ≤ marker.USE_STRING_8 then
     marker.STRING_8 :: toBytesBE 1 s.length
   else if s.length ≤ marker.USE_STRING_16 then
     marker.STRING_16 :: toBytesBE 2 s.length
   else if s.length ≤ marker.USE_STRING_32 then
     marker.STRING_32 :: toBytesBE 4 s.length
   else []) ++ s

/-- Model of the `Serializer::serialize_seq` header: `Some(0)` and `None` write the tiny
marker with nibble 0; otherwise the narrowest tier for the element count. -/
def serialize_seq (len : Nat) : List Nat :=
  if len = 0 then [marker.TINY_LIST_NIBBLE ||| 0]
  else if len ≤ marker.USE_TINY_LIST then [marker.TINY_LIST_NIBBLE ||| len % 256]
  else if len ≤ marker.USE_LIST_8 then marker.LIST_8 :: toBytesBE 1 len
  else if len ≤ marker.USE_LIST_16 then marker.LIST_16 :: toBytesBE 2 len
  else if len ≤ marker.USE_LIST_32 then marker.LIST_32 :: toBytesBE 4 len
  else []

/-- Model of the `Serializer::serialize_map` header: same four tiers keyed on the entry
count. -/
def serialize_map (len : Nat) : List Nat :=
  if len = 0 then [marker.TINY_MAP_NIBBLE ||| 0]
  else if len ≤ marker.USE_TINY_MAP then [marker.TINY_MAP_NIBBLE ||| len % 256]
  else if len ≤ marker.USE_MAP_8 then marker.MAP_8 :: toBytesBE 1 len
  else if len ≤ marker.USE_MAP_16 then marker.MAP_16 :: toBytesBE 2 len
  else if len ≤ marker.USE_MAP_32 then marker.MAP_32 :: toBytesBE 4 len
  else []

/-- Following the spec's words (not the source): the narrowest-tier size
header for a given tiny-nibble marker and 8/16/32-bit tier markers, with
big-endian explicit length fields. -/
def specSizedHeader (tiny m8 m16 m32 len : Nat) : List Nat :=
  if len ≤ 15 then [tiny + len]
  else if len ≤ 255 then [m8, len]
  else if len ≤ 65535 then [m16, len / 256, len % 256]
  else [m32, len / 16777216, len / 65536 % 256, len / 256 % 256, len % 256]

theorem lor_nibble_0x80 (len : Nat) (h : len ≤ 15) : 0x80 ||| len = 0x80 + len := by
  interval_cases len <;> rfl

theorem lor_nibble_0x90 (len : Nat) (h : len ≤ 15) : 0x90 ||| len = 0x90 + len := by
  interval_cases len <;> rfl

theorem lor_nibble_0xA0 (len : Nat) (h : len ≤ 15) : 0xA0 ||| len = 0xA0 + len := by
  interval_cases len <;> rfl

theorem lor_nibble_0xB0 (len : Nat) (h : len ≤ 15) : 0xB0 ||| len = 0xB0 + len := by
  interval_cases len <;> rfl

theorem toBytesBE_one (len : Nat) (h : len ≤ 255) : toBytesBE 1 len = [len] := by
  simp [toBytesBE, Nat.mod_eq_of_lt (show len < 256 by omega)]

theorem toBytesBE_two (len : Nat) (h : len ≤ 65535) :
    toBytesBE 2 len = [len / 256, len % 256] := by
  have h1 : len / 256 % 256 = len / 256 := Nat.mod_eq_of_lt (by omega)
  simp [toBytesBE, h1]

theorem toBytesBE_four (len : Nat) (h : len ≤ 4294967295) :
    toBytesBE 4 len = [len / 16777216, len / 65536 % 256, len / 256 % 256, len % 256] := by
  have h1 : len / 256 / 256 = len / 65536 := by omega
  have h2 : len / 256 / 256 / 256 = len / 16777216 := by omega
  have h3 : len / 16777216 % 256 = len / 16777216 := Nat.mod_eq_of_lt (by omega)
  simp only [toBytesBE, List.nil_append, List.cons_append, List.append_assoc,
    List.singleton_append, List.cons.injEq, and_true, List.nil_eq, and_self]
  omega

theorem emit_str_header (s : List Nat) (h : s.length ≤ 4294967295) :
    emit_str s
      = specSizedHeader marker.TINY_STRING_NIBBLE marker.STRING_8 marker.STRING_16
          marker.STRING_32 s.length ++ s := by
  simp only [emit_str, specSizedHeader, marker.USE_TINY_STRING, marker.USE_STRING_8,
    marker.USE_STRING_16, marker.USE_STRING_32, marker.TINY_STRING_NIBBLE,
    marker.STRING_8, marker.STRING_16, marker.STRING_32]
  split_ifs <;> try omega
  · rw [Nat.mod_eq_of_lt (by omega), lor_nibble_0x80 _ (by omega)]
  · rw [toBytesBE_one _ (by omega)]
  · rw [toBytesBE_two _ (by omega)]
  · rw [toBytesBE_four _ (by omega)]

theorem serialize_seq_header (len : Nat) (h : len ≤ 4294967295) :
    serialize_seq len
      = specSizedHeader marker.TINY_LIST_NIBBLE marker.LIST_8 marker.LIST_16
          marker.LIST_32 len := by
  simp only [serialize_seq, specSizedHeader, marker.USE_TINY_LIST, marker.USE_LIST_8,
    marker.USE_LIST_16, marker.USE_LIST_32, marker.TINY_LIST_NIBBLE,
    marker.LIST_8, marker.LIST_16, marker.LIST_32]
  split_ifs <;> try omega
  · simp_all
  · rw [Nat.mod_eq_of_lt (by omega), lor_nibble_0x90 _ (by omega)]
  · rw [toBytesBE_one _ (by omega)]
  · rw [toBytesBE_two _ (by omega)]
  · rw [toBytesBE_four _ (by omega)]

theorem serialize_map_header (len : Nat) (h : len ≤ 4294967295) :
    serialize_map len
      = specSizedHeader marker.TINY_MAP_NIBBLE marker.MAP_8 marker.MAP_16
          marker.MAP_32 len := by
  simp only [serialize_map, specSizedHeader, marker.USE_TINY_MAP, marker.USE_MAP_8,
    marker.USE_MAP_16, marker.USE_MAP_32, marker.TINY_MAP_NIBBLE,
    marker.MAP_8, marker.MAP_16, marker.MAP_32]
  split_ifs <;> try omega
  · simp_all
  · rw [Nat.mod_eq_of_lt (by omega), lor_nibble_0xA0 _ (by omega)]
  · rw [toBytesBE_one _ (by omega)]
  · rw [toBytesBE_two _ (by omega)]
  · rw [toBytesBE_four _ (by omega)]

/-- C9: the encoder picks the narrowest size tier for the byte length of a
string: any string up to the 32-bit tier encodes as the narrowest-tier
header followed by its bytes; in particular a 15-byte string gets the tiny
marker 0x8F, a 16-byte one gets 0xD0 0x10, and the same transitions occur
at 255 vs 256 bytes and 65535 vs 65536 bytes; list and map length headers
follow the same tier scheme. -/
theorem claim_C9 (s : List Nat) (h : s.length ≤ 4294967295) :
    emit_str s
      = specSizedHeader marker.TINY_STRING_NIBBLE marker.STRING_8 marker.STRING_16
          marker.STRING_32 s.length ++ s
    ∧ (s.length = 15 → emit_str s = 0x8F :: s)
    ∧ (s.length = 16 → emit_str s = 0xD0 :: 0x10 :: s)
    ∧ (s.length = 255 → emit_str s = 0xD0 :: 0xFF :: s)
    ∧ (s.length = 256 → emit_str s = 0xD1 :: 0x01 :: 0x00 :: s)
    ∧ (s.length = 65535 → emit_str s = 0xD1 :: 0xFF :: 0xFF :: s)
    ∧ (s.length = 65536 → emit_str s = 0xD2 :: 0x00 :: 0x01 :: 0x00 :: 0x00 :: s)
    ∧ (∀ len, len ≤ 4294967295 →
        serialize_seq len
          = specSizedHeader marker.TINY_LIST_NIBBLE marker.LIST_8 marker.LIST_16
              marker.LIST_32 len
        ∧ serialize_map len
          = specSizedHeader marker.TINY_MAP_NIBBLE marker.MAP_8 marker.MAP_16
              marker.MAP_32 len)
    ∧ serialize_seq 15 = [0x9F] ∧ serialize_seq 16 = [0xD4, 0x10]
    ∧ serialize_seq 65535 = [0xD5, 0xFF, 0xFF]
    ∧ serialize_seq 65536 = [0xD6, 0x00, 0x01, 0x00, 0x00]
    ∧ serialize_map 15 = [0xAF] ∧ serialize_map 16 = [0xD8, 0x10]
    ∧ serialize_map 65535 = [0xD9, 0xFF, 0xFF]
    ∧ serialize_map 65536 = [0xDA, 0x00, 0x01, 0x00, 0x00] := by
  refine ⟨emit_str_header s h, ?_, ?_, ?_, ?_, ?_, ?_,
    fun len hl => ⟨serialize_seq_header len hl, serialize_map_header len hl⟩,
    by decide, by decide, by decide, by decide, by decide, by decide, by decide, by decide⟩
    <;> intro hlen <;> rw [emit_str_header s h, hlen] <;> rfl

theorem claim_C9_witness :
    (List.replicate 16 0x41).length ≤ 4294967295
    ∧ ((List.replicate 16 0x41).length = 16
        → emit_str (List.replicate 16 0x41) = 0xD0 :: 0x10 :: List.replicate 16 0x41) :=
  ⟨by simp, ((claim_C9 (List.replicate 16 0x41) (by simp)).2.2.1)⟩

/-! ## Structure headers.

Three encoder variants exist in the source and two decoder header readers:
* `PackstreamEncoder::emit_struct` (serialize.rs lines 242-270) writes
  marker, tag, length;
* `Serializer::serialize_struct` (serialize/mod.rs lines 463-485) writes
  marker and length only;
* the `Structure` arm of `impl Serialize for Value` (value/mod.rs lines
  152-180) builds marker, length, tag - with the 16-bit bound check
  commented out;
* `Deserializer::parse_value` (deserialize/mod.rs lines 133-145) reads
  marker then length, leaving the tag to be consumed as the first of
  `size + 1` sequence elements;
* `Builder::read_next` (value/builder.rs lines 157-166) reads marker,
  tag, then length. -/

/-- Errors of the serializers (EncoderError / SerializerError). -/
inductive SerErr where
  | IoError : SerErr
  | InvalidStructureLength : SerErr
  | Custom : String → SerErr
deriving DecidableEq, Repr

/-- Header written by `PackstreamEncoder::emit_struct`: tiny tier is
marker-nibble-with-length then tag; the 8- and 16-bit tiers write the
marker, then the tag, then the length; above 65535 the distinct
`InvalidStructureLength` error is returned. -/
def emit_struct_header (signature len : Nat) : Except SerErr (List Nat) :=
  if len ≤ marker.USE_TINY_STRUCT then
    .ok [marker.TINY_STRUCT_NIBBLE ||| len % 256, signature]
  else if len ≤ marker.USE_STRUCT_8 then
    .ok [marker.STRUCT_8, signature, len % 256]
  else if len ≤ marker.USE_STRUCT_16 then
    .ok (marker.STRUCT_16 :: signature :: toBytesBE 2 len)
  else
    .error .InvalidStructureLength

/-- Header written by `Serializer::serialize_struct` for a
`__STRUCTURE__` struct: marker then length, no tag byte. -/
def serialize_struct_header (len : Nat) : Except SerErr (List Nat) :=
  if len ≤ marker.USE_TINY_STRUCT then
    .ok [marker.TINY_STRUCT_NIBBLE ||| len % 256]
  else if len ≤ marker.USE_STRUCT_8 then
    .ok [marker.STRUCT_8, len % 256]
  else if len ≤ marker.USE_STRUCT_16 then
    .ok (marker.STRUCT_16 :: toBytesBE 2 len)
  else
    .error .InvalidStructureLength

/-- Header bytes built by the `Structure` arm of `impl Serialize for
Value`: marker, length, tag.  The `len <= USE_STRUCT_16` guard and the
error return are commented out in the source, so every length above 255
falls into the 16-bit arm and is truncated by `len as u16`; the function
cannot fail. -/
def valueStructureHeader (signature len : Nat) : List Nat :=
  if len ≤ marker.USE_TINY_STRUCT then
    [marker.TINY_STRUCT_NIBBLE ||| len % 256, signature]
  else if len ≤ marker.USE_STRUCT_8 then
    [marker.STRUCT_8, len % 256, signature]
  else
    marker.STRUCT_16 :: toBytesBE 2 len ++ [signature]

/-- The structure arm of `Deserializer::parse_value`: after the marker the
length is read (nibble, 1 byte, or 2 big-endian bytes); the tag byte is
NOT consumed here - it is handed to the visitor as the first of
`size + 1` sequence elements.  The `Panic` result marks the
`unreachable!()` arm for markers outside the structure ranges. -/
def parse_struct_size (bs : List Nat) : Except DecErr (Nat × List Nat) :=
  match bs with
  | [] => .error .UnexpectedEOF
  | m :: rest =>
    if 0xB0 ≤ m ∧ m ≤ 0xBF then .ok (m &&& 0b1111, rest)
    else if m = marker.STRUCT_8 then
      match rest with
      | [] => .error .UnexpectedEOF
      | b :: r => .ok (b, r)
    else if m = marker.STRUCT_16 then
      if 2 ≤ rest.length then .ok (fromBytesBE (rest.take 2), rest.drop 2)
      else .error .UnexpectedEOF
    else .error .Panic

/-- The structure arms of `Builder::read_next` (value/builder.rs): for the
8- and 16-bit tiers the TAG byte is read first (`read_u8`), then the
length.  Returns (signature, size, rest). -/
def builderStructHeader (bs : List Nat) : Except DecErr (Nat × Nat × List Nat) :=
  match bs with
  | [] => .error .UnexpectedEOF
  | m :: rest =>
    if 0xB0 ≤ m ∧ m ≤ 0xBF then
      match rest with
      | [] => .error .UnexpectedEOF
      | s :: r => .ok (s, m &&& 0b1111, r)
    else if m = marker.STRUCT_8 then
      match rest with
      | s :: l :: r => .ok (s, l, r)
      | _ => .error .UnexpectedEOF
    else if m = marker.STRUCT_16 then
      match rest with
      | [] => .error .UnexpectedEOF
      | s :: r =>
        if 2 ≤ r.length then .ok (s, fromBytesBE (r.take 2), r.drop 2)
        else .error .UnexpectedEOF
    else .error .Panic

instance instDecEqExcept {ε α : Type _} [DecidableEq ε] [DecidableEq α] :
    DecidableEq (Except ε α) := fun x y =>
  match x, y with
  | .ok a, .ok b =>
    match decEq a b with
    | .isTrue h => .isTrue (h ▸ rfl)
    | .isFalse h => .isFalse (fun hc => h (Except.ok.inj hc))
  | .ok _, .error _ => .isFalse (fun hc => Except.noConfusion hc)
  | .error _, .ok _ => .isFalse (fun hc => Except.noConfusion hc)
  | .error e, .error f =>
    match decEq e f with
    | .isTrue h => .isTrue (h ▸ rfl)
    | .isFalse h => .isFalse (fun hc => h (Except.error.inj hc))

/-- C2 counterexample: for a 16-field structure with tag 0x01 the encoder
`emit_struct` emits 0xDC, tag 0x01, then length 0x10 - NOT the claimed
order 0xDC, length, tag - and feeding its output to the decoder makes the
decoder read the tag byte 0x01 as the length. -/
theorem claim_C2_counterexample :
    emit_struct_header 0x01 16 = .ok [0xDC, 0x01, 0x10]
    ∧ emit_struct_header 0x01 16 ≠ .ok [0xDC, 0x10, 0x01]
    ∧ parse_struct_size [0xDC, 0x01, 0x10] = .ok (0x01, [0x10]) := by
  refine ⟨by decide, by decide, by decide⟩

/-- C2 amended: the codec does NOT use one self-consistent ordering of
length field and tag byte for the 8- and 16-bit structure tiers.  The
`Value` serializer writes marker, length, tag and `parse_value` reads the
length right after the marker (tag next, as the first field), while
`emit_struct` writes marker, tag, length, which matches only the older
`Builder::read_next` decoder. -/
theorem claim_C2 (sig len : Nat) (rest : List Nat) :
    (16 ≤ len → len ≤ 255 →
      emit_struct_header sig len = .ok [0xDC, sig, len]
      ∧ valueStructureHeader sig len = [0xDC, len, sig]
      ∧ parse_struct_size (0xDC :: len :: sig :: rest) = .ok (len, sig :: rest)
      ∧ builderStructHeader (0xDC :: sig :: len :: rest) = .ok (sig, len, rest))
    ∧ (256 ≤ len → len ≤ 65535 →
      emit_struct_header sig len = .ok [0xDD, sig, len / 256, len % 256]
      ∧ valueStructureHeader sig len = [0xDD, len / 256, len % 256, sig]
      ∧ parse_struct_size (0xDD :: len / 256 :: len % 256 :: sig :: rest)
          = .ok (len, sig :: rest)
      ∧ builderStructHeader (0xDD :: sig :: len / 256 :: len % 256 :: rest)
          = .ok (sig, len, rest)) := by
  constructor
  · intro h16 h255
    have hmod : len % 256 = len := Nat.mod_eq_of_lt (by omega)
    refine ⟨?_, ?_, ?_, ?_⟩
    · rw [emit_struct_header, if_neg (by simp [marker.USE_TINY_STRUCT]; omega),
        if_pos (by simp [marker.USE_STRUCT_8]; omega)]
      simp [marker.STRUCT_8, hmod]
    · rw [valueStructureHeader, if_neg (by simp [marker.USE_TINY_STRUCT]; omega),
        if_pos (by simp [marker.USE_STRUCT_8]; omega)]
      simp [marker.STRUCT_8, hmod]
    · rw [parse_struct_size]
      simp only [marker.STRUCT_8, marker.STRUCT_16]
      rw [if_neg (by omega), if_pos (by decide)]
    · rw [builderStructHeader]
      simp only [marker.STRUCT_8, marker.STRUCT_16]
      rw [if_neg (by omega), if_pos (by decide)]
  · intro h256 h65
    refine ⟨?_, ?_, ?_, ?_⟩
    · rw [emit_struct_header, if_neg (by simp [marker.USE_TINY_STRUCT]; omega),
        if_neg (by simp [marker.USE_STRUCT_8]; omega),
        if_pos (by simp [marker.USE_STRUCT_16]; omega)]
      rw [toBytesBE_two _ (by omega)]
      simp [marker.STRUCT_16]
    · rw [valueStructureHeader, if_neg (by simp [marker.USE_TINY_STRUCT]; omega),
        if_neg (by simp [marker.USE_STRUCT_8]; omega)]
      rw [toBytesBE_two _ (by omega)]
      simp [marker.STRUCT_16]
    · rw [parse_struct_size]
      simp only [marker.STRUCT_8, marker.STRUCT_16]
      rw [if_neg (by omega), if_neg (by omega), if_pos (by decide),
        if_pos (by simp)]
      simp [fromBytesBE]
      omega
    · rw [builderStructHeader]
      simp only [marker.STRUCT_8, marker.STRUCT_16]
      rw [if_neg (by omega), if_neg (by omega), if_pos (by decide),
        if_pos (by simp)]
      simp [fromBytesBE]
      omega

theorem claim_C2_witness :
    emit_struct_header 1 16 = .ok [0xDC, 1, 16]
    ∧ valueStructureHeader 1 16 = [0xDC, 16, 1]
    ∧ parse_struct_size [0xDC, 16, 1] = .ok (16, [1])
    ∧ builderStructHeader [0xDC, 1, 16] = .ok (1, 16, []) := by
  have h := (claim_C2 1 16 []).1 (by decide) (by decide)
  simpa using h

/-- C5 counterexample: the structure-encoding path of
`impl Serialize for Value` does not reject a field count above 65535: at
65536 fields it silently truncates the 16-bit length field to 0x0000 and
returns a successful header instead of the `InvalidStructureLength`
error the claim requires on every structure-encoding path. -/
theorem claim_C5_counterexample :
    valueStructureHeader 0x42 65536 = [0xDD, 0x00, 0x00, 0x42] := by decide

/-- C5 amended: the two `Serializer` structure paths (`emit_struct` and
`serialize_struct`) fail exactly on field counts above 65535, with the
distinct `InvalidStructureLength` error; but the `impl Serialize for
Value` structure path never fails: above 65535 fields it truncates the
length to 16 bits (writing `len mod 65536` big-endian) and succeeds. -/
theorem claim_C5 (sig len : Nat) (h : 65535 < len) :
    emit_struct_header sig len = .error .InvalidStructureLength
    ∧ serialize_struct_header len = .error .InvalidStructureLength
    ∧ valueStructureHeader sig len
        = [0xDD, len % 65536 / 256, len % 256, sig]
    ∧ (∀ l2 s2, l2 ≤ 65535 →
        emit_struct_header s2 l2 ≠ .error .InvalidStructureLength
        ∧ serialize_struct_header l2 ≠ .error .InvalidStructureLength) := by
  refine ⟨?_, ?_, ?_, ?_⟩
  · rw [emit_struct_header, if_neg (by simp [marker.USE_TINY_STRUCT]; omega),
      if_neg (by simp [marker.USE_STRUCT_8]; omega),
      if_neg (by simp [marker.USE_STRUCT_16]; omega)]
  · rw [serialize_struct_header, if_neg (by simp [marker.USE_TINY_STRUCT]; omega),
      if_neg (by simp [marker.USE_STRUCT_8]; omega),
      if_neg (by simp [marker.USE_STRUCT_16]; omega)]
  · rw [valueStructureHeader, if_neg (by simp [marker.USE_TINY_STRUCT]; omega),
      if_neg (by simp [marker.USE_STRUCT_8]; omega)]
    have h1 : len / 256 % 256 = len % 65536 / 256 := by omega
    simp [toBytesBE, marker.STRUCT_16, h1]
  · intro l2 s2 hl2
    constructor
    · rw [emit_struct_header]
      split_ifs with a b c <;> simp_all [marker.USE_STRUCT_16]
    · rw [serialize_struct_header]
      split_ifs with a b c <;> simp_all [marker.USE_STRUCT_16]

theorem claim_C5_witness :
    65535 < 65536
    ∧ (emit_struct_header 0x42 65536 = .error .InvalidStructureLength
       ∧ serialize_struct_header 65536 = .error .InvalidStructureLength
       ∧ valueStructureHeader 0x42 65536
           = [0xDD, 65536 % 65536 / 256, 65536 % 256, 0x42]
       ∧ (∀ l2 s2, l2 ≤ 65535 →
           emit_struct_header s2 l2 ≠ .error .InvalidStructureLength
           ∧ serialize_struct_header l2 ≠ .error .InvalidStructureLength)) :=
  ⟨by decide, claim_C5 0x42 65536 (by decide)⟩

/-! ## Chunked transport (src/v1/transport.rs)

The socket is modelled as the list of bytes still to be delivered; a
`read` call into a buffer of size `n` delivers `min n available` bytes
and leaves the remainder of the buffer zeroed, exactly as a single
`Read::read` call on a stream that then ends. -/

def MAX_CHUNK_SIZE : Nat := 65535

/-- The outgoing half of `ChunkedStream`: the raw chunk bytes awaiting
`send`, plus the not-yet-flushed payload accumulator. -/
structure ChunkedState where
  raw : List Nat
  output_buffer : List Nat
  output_size : Nat
deriving DecidableEq, Repr

def initChunked : ChunkedState := ⟨[], [], 0⟩

/-- Model of `ChunkedStream::flush`: if there is buffered payload, append one
length-prefixed chunk to the raw buffer; if `end_of_message`, also append
the 0x0000 terminator; clear the accumulator only when something was
written. -/
def flush (st : ChunkedState) (end_of_message : Bool) : ChunkedState :=
  let buf : List Nat :=
    (if 0 < st.output_buffer.length then
       toBytesBE 2 st.output_size ++ st.output_buffer
     else []) ++ (if end_of_message then [0x00, 0x00] else [])
  if 0 < buf.length then
    { raw := st.raw ++ buf, output_buffer := [], output_size := 0 }
  else st

/-- The loop of `ChunkedStream::write`: while appending would reach the
maximum chunk payload, fill the accumulator to exactly 65535 bytes,
flush (one chunk), and continue with the remainder; otherwise append and
stop.  The structural fuel only bounds the iteration count; `write`
supplies enough for any input. -/
def writeLoop : Nat → ChunkedState → List Nat → ChunkedState
  | 0, st, _ => st
  | fuel + 1, st, b =>
    if MAX_CHUNK_SIZE ≤ st.output_size + b.length then
      let endIdx := MAX_CHUNK_SIZE - st.output_size
      let st1 : ChunkedState :=
        { st with output_buffer := st.output_buffer ++ b.take endIdx,
                  output_size := MAX_CHUNK_SIZE }
      writeLoop fuel (flush st1 false) (b.drop endIdx)
    else
      { st with output_buffer := st.output_buffer ++ b,
                output_size := st.output_size + b.length }

def write (st : ChunkedState) (b : List Nat) : ChunkedState :=
  writeLoop (b.length + 1) st b

/-- The loop of `ChunkedStream::receive`: read a 2-byte big-endian length
prefix (a clean end of stream here ends the message), stop on a zero
length, otherwise allocate `chunk_size` zeroed bytes, issue one `read`
whose byte count is ignored, and append the whole buffer. -/
def receiveLoop : Nat → List Nat → List Nat → List Nat
  | 0, _, acc => acc
  | _ + 1, [], acc => acc
  | _ + 1, [_], acc => acc
  | fuel + 1, b0 :: b1 :: rest, acc =>
    let chunk_size := b0 * 256 + b1
    if chunk_size = 0 then acc
    else
      let got := rest.take chunk_size
      let buf := got ++ List.replicate (chunk_size - got.length) 0
      receiveLoop fuel (rest.drop chunk_size) (acc ++ buf)

def receive (stream : List Nat) : List Nat :=
  receiveLoop (stream.length + 1) stream []

/-- One wire frame per chunk: 2-byte big-endian length then payload. -/
def chunkFrames (chunks : List (List Nat)) : List Nat :=
  chunks.foldr (fun c acc => toBytesBE 2 c.length ++ c ++ acc) []

theorem writeLoop_ge (fuel : Nat) (st : ChunkedState) (b : List Nat)
    (h : MAX_CHUNK_SIZE ≤ st.output_size + b.length) :
    writeLoop (fuel + 1) st b
      = writeLoop fuel
          (flush { st with
              output_buffer := st.output_buffer ++ b.take (MAX_CHUNK_SIZE - st.output_size),
              output_size := MAX_CHUNK_SIZE } false)
          (b.drop (MAX_CHUNK_SIZE - st.output_size)) := by
  rw [writeLoop, if_pos h]

theorem writeLoop_lt (fuel : Nat) (st : ChunkedState) (b : List Nat)
    (h : st.output_size + b.length < MAX_CHUNK_SIZE) :
    writeLoop (fuel + 1) st b
      = { st with output_buffer := st.output_buffer ++ b,
                  output_size := st.output_size + b.length } := by
  rw [writeLoop, if_neg (by omega)]

theorem writeLoop_nil (fuel : Nat) (st : ChunkedState)
    (h : st.output_size < MAX_CHUNK_SIZE) :
    writeLoop fuel st [] = st := by
  cases fuel with
  | zero => rfl
  | succ fuel =>
    rw [writeLoop_lt fuel st [] (by simpa using h)]
    cases st
    simp

/-- C6: a single `write` of exactly 65535 bytes from a fresh stream emits
exactly one chunk - the 2-byte big-endian prefix 0xFF 0xFF followed by
the payload - and a subsequent flush adds nothing; a single write of
65536 bytes followed by a flush emits exactly two chunks, a 65535-byte
chunk and then a 1-byte chunk with prefix 0x00 0x01. -/
theorem claim_C6 (p q : List Nat) (hp : p.length = 65535) (hq : q.length = 65536) :
    write initChunked p = ⟨[0xFF, 0xFF] ++ p, [], 0⟩
    ∧ flush (write initChunked p) false = ⟨[0xFF, 0xFF] ++ p, [], 0⟩
    ∧ flush (write initChunked q) false
        = ⟨[0xFF, 0xFF] ++ q.take 65535 ++ [0x00, 0x01] ++ q.drop 65535, [], 0⟩ := by
  have hbe : toBytesBE 2 65535 = [0xFF, 0xFF] := by decide
  have hbe1 : toBytesBE 2 1 = [0x00, 0x01] := by decide
  have h1 : write initChunked p = ⟨[0xFF, 0xFF] ++ p, [], 0⟩ := by
    rw [write, writeLoop_ge _ _ _ (by simp [initChunked, MAX_CHUNK_SIZE, hp])]
    have e0 : MAX_CHUNK_SIZE - initChunked.output_size = p.length := by
      simp [initChunked, MAX_CHUNK_SIZE, hp]
    rw [e0, List.take_length, List.drop_length]
    have hfl : flush { initChunked with
        output_buffer := initChunked.output_buffer ++ p,
        output_size := MAX_CHUNK_SIZE } false = ⟨[0xFF, 0xFF] ++ p, [], 0⟩ := by
      simp [flush, initChunked, MAX_CHUNK_SIZE, hp, hbe]
    rw [hfl, writeLoop_nil _ _ (by simp [MAX_CHUNK_SIZE])]
  refine ⟨h1, ?_, ?_⟩
  · rw [h1]; simp [flush]
  · have hq1 : (q.take 65535).length = 65535 := by simp [hq]
    have hq2 : (q.drop 65535).length = 1 := by simp [hq]
    rw [write, writeLoop_ge _ _ _ (by simp [initChunked, MAX_CHUNK_SIZE, hq])]
    have e0 : MAX_CHUNK_SIZE - initChunked.output_size = 65535 := by
      simp [initChunked, MAX_CHUNK_SIZE]
    rw [e0]
    have hfl : flush { initChunked with
        output_buffer := initChunked.output_buffer ++ q.take 65535,
        output_size := MAX_CHUNK_SIZE } false
        = ⟨[0xFF, 0xFF] ++ q.take 65535, [], 0⟩ := by
      simp [flush, initChunked, MAX_CHUNK_SIZE, hbe, hq1]
    rw [hfl, hq, show (65536:Nat) = 65535 + 1 from rfl,
      writeLoop_lt _ _ _ (by simp [MAX_CHUNK_SIZE, hq2])]
    simp [flush, hq2, hbe1]

theorem claim_C6_witness :
    (List.replicate 65535 7).length = 65535
    ∧ (List.replicate 65536 7).length = 65536
    ∧ (write initChunked (List.replicate 65535 7)
          = ⟨[0xFF, 0xFF] ++ List.replicate 65535 7, [], 0⟩
       ∧ flush (write initChunked (List.replicate 65535 7)) false
          = ⟨[0xFF, 0xFF] ++ List.replicate 65535 7, [], 0⟩
       ∧ flush (write initChunked (List.replicate 65536 7)) false
          = ⟨[0xFF, 0xFF] ++ (List.replicate 65536 7).take 65535
              ++ [0x00, 0x01] ++ (List.replicate 65536 7).drop 65535, [], 0⟩) :=
  ⟨List.length_replicate 65535 7, List.length_replicate 65536 7,
    claim_C6 _ _ (List.length_replicate 65535 7) (List.length_replicate 65536 7)⟩

theorem receiveLoop_frames (chunks : List (List Nat)) :
    ∀ (fuel : Nat) (t acc : List Nat),
      (∀ c ∈ chunks, 0 < c.length ∧ c.length ≤ 65535) →
      (chunkFrames chunks ++ t).length < fuel →
      (t = [] ∨ ∃ tr, t = 0 :: 0 :: tr) →
      receiveLoop fuel (chunkFrames chunks ++ t) acc = acc ++ chunks.flatten := by
  induction chunks with
  | nil =>
    intro fuel t acc _ hfuel ht
    cases fuel with
    | zero => omega
    | succ f =>
      rcases ht with rfl | ⟨tr, rfl⟩
      · simp [chunkFrames, receiveLoop]
      · simp [chunkFrames, receiveLoop]
  | cons c cs ih =>
    intro fuel t acc hc hfuel ht
    have hclen := hc c (List.mem_cons_self c cs)
    have hframes : chunkFrames (c :: cs)
        = (c.length / 256) :: (c.length % 256) :: (c ++ chunkFrames cs) := by
      rw [chunkFrames, List.foldr_cons, toBytesBE_two c.length hclen.2]
      simp [chunkFrames]
    rw [hframes] at hfuel ⊢
    cases fuel with
    | zero => simp at hfuel
    | succ f =>
      have hsz : c.length / 256 * 256 + c.length % 256 = c.length := by omega
      rw [List.cons_append, List.cons_append, receiveLoop]
      simp only [hsz]
      rw [if_neg (by omega)]
      have hrest : (c ++ chunkFrames cs) ++ t = c ++ (chunkFrames cs ++ t) := by
        simp [List.append_assoc]
      rw [hrest, List.take_left' rfl, List.drop_left' rfl]
      have hbuf : c ++ List.replicate (c.length - c.length) 0 = c := by
        simp
      rw [hbuf]
      rw [ih f t (acc ++ c) (fun d hd => hc d (List.mem_cons_of_mem c hd))
        (by simp at hfuel ⊢; omega) ht]
      simp

/-- C7: `receive` reads 2-byte big-endian chunk-length prefixes and
concatenates chunk payloads until a zero length, ignoring bytes after the
terminator; a clean end of stream while expecting a prefix also ends the
message normally with the bytes accumulated so far; and on
[0x00, 0x01, 0xAB, 0x00, 0x00] it returns exactly [0xAB]. -/
theorem claim_C7 (chunks : List (List Nat)) (trailing : List Nat)
    (h : ∀ c ∈ chunks, 0 < c.length ∧ c.length ≤ 65535) :
    receive (chunkFrames chunks ++ 0x00 :: 0x00 :: trailing) = chunks.flatten
    ∧ receive (chunkFrames chunks) = chunks.flatten
    ∧ receive [0x00, 0x01, 0xAB, 0x00, 0x00] = [0xAB]
    ∧ receive [] = [] := by
  refine ⟨?_, ?_, by decide, by decide⟩
  · rw [receive,
      receiveLoop_frames chunks _ _ [] h (by omega) (.inr ⟨trailing, rfl⟩)]
    simp
  · rw [receive]
    have h2 := receiveLoop_frames chunks ((chunkFrames chunks).length + 1) [] [] h
      (by simp) (.inl rfl)
    simpa using h2

theorem claim_C7_witness :
    (∀ c ∈ [[0xAB]], 0 < c.length ∧ c.length ≤ 65535)
    ∧ (receive (chunkFrames [[0xAB]] ++ 0x00 :: 0x00 :: []) = [[0xAB]].flatten
       ∧ receive (chunkFrames [[0xAB]]) = [[0xAB]].flatten
       ∧ receive [0x00, 0x01, 0xAB, 0x00, 0x00] = [0xAB]
       ∧ receive [] = []) :=
  ⟨by decide, claim_C7 [[0xAB]] [] (by decide)⟩

/-- C8: contrary to the claim, `receive` ignores the byte count returned
by the single `read` call for a chunk payload.  On the stream
[0x00, 0x02, 0xAB] - a chunk declaring 2 payload bytes of which only one
arrives before the stream ends - it returns SUCCESS with the message
[0xAB, 0x00]: the missing byte is replaced by the zero padding of the
freshly allocated buffer instead of surfacing a truncation error. -/
theorem claim_C8_bug :
    receive [0x00, 0x02, 0xAB] = [0xAB, 0x00]
    ∧ receive [0x00, 0x02, 0xAB] ≠ [0xAB] := by
  refine ⟨by decide, by decide⟩

/-! ## Marker classification (deserialize.rs lines 19-91 and
deserialize/types.rs) and the decoder entry points cited by the safety
claim: `PackstreamDecoder::read_seq` and `Deserializer::parse_value`. -/

def is_tiny_string (b : Nat) : Bool := b >>> 4 == 0x80 >>> 4
def is_tiny_list (b : Nat) : Bool := b >>> 4 == 0x90 >>> 4
def is_tiny_map (b : Nat) : Bool := b >>> 4 == 0xA0 >>> 4
def is_tiny_structure (b : Nat) : Bool := b >>> 4 == 0xB0 >>> 4

/-- Model of `which`: the diagnostic name of the marker kind a byte belongs to. -/
def which (b : Nat) : Option String :=
  if b = marker.NULL then some "NULL"
  else if b = marker.TRUE then some "TRUE"
  else if b = marker.FALSE then some "FALSE"
  else if is_tiny_int b then some "TINY_INT"
  else if b = marker.INT_8 then some "INT_8"
  else if b = marker.INT_16 then some "INT_16"
  else if b = marker.INT_32 then some "INT_32"
  else if b = marker.INT_64 then some "INT_64"
  else if b = marker.FLOAT then some "FLOAT"
  else if is_tiny_string b then some "TINY_STRING"
  else if b = marker.STRING_8 then some "STRING_8"
  else if b = marker.STRING_16 then some "STRING_16"
  else if b = marker.STRING_32 then some "STRING_32"
  else if is_tiny_list b then some "TINY_LIST"
  else if b = marker.LIST_8 then some "LIST_8"
  else if b = marker.LIST_16 then some "LIST_16"
  else if b = marker.LIST_32 then some "LIST_32"
  else if is_tiny_map b then some "TINY_MAP"
  else if b = marker.MAP_8 then some "MAP_8"
  else if b = marker.MAP_16 then some "MAP_16"
  else if b = marker.MAP_32 then some "MAP_32"
  else if is_tiny_structure b then some "TINY_STRUCT"
  else if b = marker.STRUCT_8 then some "STRUCT_8"
  else if b = marker.STRUCT_16 then some "STRUCT_16"
  else none

def hexDigit (n : Nat) : Char :=
  if n = 0 then '0' else if n = 1 then '1' else if n = 2 then '2'
  else if n = 3 then '3' else if n = 4 then '4' else if n = 5 then '5'
  else if n = 6 then '6' else if n = 7 then '7' else if n = 8 then '8'
  else if n = 9 then '9' else if n = 10 then 'A' else if n = 11 then 'B'
  else if n = 12 then 'C' else if n = 13 then 'D' else if n = 14 then 'E'
  else 'F'

/-- The `{:02X}` formatting of a byte. -/
def hexByte (b : Nat) : String :=
  String.mk [hexDigit (b / 16 % 16), hexDigit (b % 16)]

/-- The payload of the `wrong_marker!` macro: the marker kind name, or the
`0x{:02X}` rendering of an unclassifiable byte. -/
def whichName (b : Nat) : String :=
  (which b).getD ("0x" ++ hexByte b)

/-- Model of `PackstreamDecoder::read_seq` (deserialize.rs lines 580-599): read the
list marker and its declared size; any non-list marker yields the typed
marker-mismatch error naming LIST and the actual kind. -/
def read_seq_header (bs : List Nat) : Except DecErr (Nat × List Nat) :=
  match bs with
  | [] => .error .UnexpectedEOF
  | m :: rest =>
    if is_tiny_list m then .ok (m &&& 0b1111, rest)
    else if m = marker.LIST_8 then
      match rest with
      | [] => .error .UnexpectedEOF
      | b :: r => .ok (b, r)
    else if m = marker.LIST_16 then
      if 2 ≤ rest.length then .ok (fromBytesBE (rest.take 2), rest.drop 2)
      else .error .UnexpectedEOF
    else if m = marker.LIST_32 then
      if 4 ≤ rest.length then .ok (fromBytesBE (rest.take 4), rest.drop 4)
      else .error .UnexpectedEOF
    else .error (.UnexpectedMarker "LIST" (whichName m))

/-- Model of `Deserializer::parse_float`: require the FLOAT marker, then read the
8 big-endian bytes of the IEEE-754 double (kept as the raw bit
pattern). -/
def parse_float (bs : List Nat) : Except DecErr (Nat × List Nat) :=
  match bs with
  | [] => .error .UnexpectedEOF
  | m :: rest =>
    if m ≠ marker.FLOAT then .error (.UnexpectedMarker "FLOAT" (whichName m))
    else if 8 ≤ rest.length then .ok (fromBytesBE (rest.take 8), rest.drop 8)
    else .error .UnexpectedEOF

/-- One `Read::read` call into a fresh zeroed buffer of `size` bytes whose
return count the caller ignores: the bytes still available, zero-padded to
`size`; the stream advances past what was delivered. -/
def read_padded (size : Nat) (bs : List Nat) : List Nat × List Nat :=
  let got := bs.take size
  (got ++ List.replicate (size - got.length) 0, bs.drop size)

/-- RFC 3629 UTF-8 validity, as checked by `String::from_utf8`.  The fuel
is a structural bound; `utf8Valid` supplies the list length, which
suffices since every step consumes at least one byte. -/
def utf8ValidFuel : Nat → List Nat → Bool
  | 0, bs => bs.isEmpty
  | _ + 1, [] => true
  | fuel + 1, c :: rest =>
    if c ≤ 0x7F then utf8ValidFuel fuel rest
    else if 0xC2 ≤ c ∧ c ≤ 0xDF then
      match rest with
      | c1 :: r => (0x80 ≤ c1 && c1 ≤ 0xBF) && utf8ValidFuel fuel r
      | [] => false
    else if c = 0xE0 then
      match rest with
      | c1 :: c2 :: r =>
        (0xA0 ≤ c1 && c1 ≤ 0xBF) && (0x80 ≤ c2 && c2 ≤ 0xBF) && utf8ValidFuel fuel r
      | _ => false
    else if (0xE1 ≤ c ∧ c ≤ 0xEC) ∨ c = 0xEE ∨ c = 0xEF then
      match rest with
      | c1 :: c2 :: r =>
        (0x80 ≤ c1 && c1 ≤ 0xBF) && (0x80 ≤ c2 && c2 ≤ 0xBF) && utf8ValidFuel fuel r
      | _ => false
    else if c = 0xED then
      match rest with
      | c1 :: c2 :: r =>
        (0x80 ≤ c1 && c1 ≤ 0x9F) && (0x80 ≤ c2 && c2 ≤ 0xBF) && utf8ValidFuel fuel r
      | _ => false
    else if c = 0xF0 then
      match rest with
      | c1 :: c2 :: c3 :: r =>
        (0x90 ≤ c1 && c1 ≤ 0xBF) && (0x80 ≤ c2 && c2 ≤ 0xBF)
          && (0x80 ≤ c3 && c3 ≤ 0xBF) && utf8ValidFuel fuel r
      | _ => false
    else if 0xF1 ≤ c ∧ c ≤ 0xF3 then
      match rest with
      | c1 :: c2 :: c3 :: r =>
        (0x80 ≤ c1 && c1 ≤ 0xBF) && (0x80 ≤ c2 && c2 ≤ 0xBF)
          && (0x80 ≤ c3 && c3 ≤ 0xBF) && utf8ValidFuel fuel r
      | _ => false
    else if c = 0xF4 then
      match rest with
      | c1 :: c2 :: c3 :: r =>
        (0x80 ≤ c1 && c1 ≤ 0x8F) && (0x80 ≤ c2 && c2 ≤ 0xBF)
          && (0x80 ≤ c3 && c3 ≤ 0xBF) && utf8ValidFuel fuel r
      | _ => false
    else false

def utf8Valid (bs : List Nat) : Bool := utf8ValidFuel bs.length bs

/-- Model of `Deserializer::parse_string` (deserialize/mod.rs lines 191-229): marker
and size tier, then the payload read, then UTF-8 validation.  The payload
read is modelled by `read_padded`; the source's chunked 4096-byte loop
for large sizes produces the same bytes whenever the stream holds the
declared count, differing from the single-read branch only in which tail
positions stay zero after a short delivery. -/
def parse_string (bs : List Nat) : Except DecErr (List Nat × List Nat) :=
  match bs with
  | [] => .error .UnexpectedEOF
  | m :: rest =>
    let sized : Except DecErr (Nat × List Nat) :=
      if is_tiny_string m then .ok (m &&& 0b1111, rest)
      else if m = marker.STRING_8 then
        match rest with
        | [] => .error .UnexpectedEOF
        | b :: r => .ok (b, r)
      else if m = marker.STRING_16 then
        if 2 ≤ rest.length then .ok (fromBytesBE (rest.take 2), rest.drop 2)
        else .error .UnexpectedEOF
      else if m = marker.STRING_32 then
        if 4 ≤ rest.length then .ok (fromBytesBE (rest.take 4), rest.drop 4)
        else .error .UnexpectedEOF
      else .error (.UnexpectedMarker "STRING" (whichName m))
    match sized with
    | .error e => .error e
    | .ok (size, r1) =>
      let (store, r2) := read_padded size r1
      if utf8Valid store then .ok (store, r2) else .error .InvalidUTF8

/-- The list arm of `parse_value`: the inner `match` on the marker, whose
catch-all is `unreachable!()` (modelled as `Panic`); the outer dispatch
only enters it for list markers. -/
def listSize (m : Nat) (rest : List Nat) : Except DecErr (Nat × List Nat) :=
  if 0x90 ≤ m ∧ m ≤ 0x9F then .ok (m &&& 0b1111, rest)
  else if m = marker.LIST_8 then
    match rest with
    | [] => .error .UnexpectedEOF
    | b :: r => .ok (b, r)
  else if m = marker.LIST_16 then
    if 2 ≤ rest.length then .ok (fromBytesBE (rest.take 2), rest.drop 2)
    else .error .UnexpectedEOF
  else if m = marker.LIST_32 then
    if 4 ≤ rest.length then .ok (fromBytesBE (rest.take 4), rest.drop 4)
    else .error .UnexpectedEOF
  else .error .Panic

/-- The map arm of `parse_value`, same shape as `listSize`. -/
def mapSize (m : Nat) (rest : List Nat) : Except DecErr (Nat × List Nat) :=
  if 0xA0 ≤ m ∧ m ≤ 0xAF then .ok (m &&& 0b1111, rest)
  else if m = marker.MAP_8 then
    match rest with
    | [] => .error .UnexpectedEOF
    | b :: r => .ok (b, r)
  else if m = marker.MAP_16 then
    if 2 ≤ rest.length then .ok (fromBytesBE (rest.take 2), rest.drop 2)
    else .error .UnexpectedEOF
  else if m = marker.MAP_32 then
    if 4 ≤ rest.length then .ok (fromBytesBE (rest.take 4), rest.drop 4)
    else .error .UnexpectedEOF
  else .error .Panic

/-- What `Deserializer::parse_value` establishes from the head of the
input before recursing: the visited scalar, or the declared size of the
compound value about to be walked. -/
inductive Head where
  | null : Head
  | boolTrue : Head
  | boolFalse : Head
  | int : Int → Head
  | float : Nat → Head
  | str : List Nat → Head
  | listHead : Nat → Head
  | mapHead : Nat → Head
  | structHead : Nat → Head
deriving DecidableEq, Repr

/-- The marker dispatch of `Deserializer::parse_value` (deserialize/mod.rs
lines 83-152): classify the peeked byte by the source's match arms, read
the scalar payload or compound size, and fall through to the typed
catch-all `UnexpectedMarker("Type Marker", {:02X})` for bytes no arm
covers. -/
def parse_value_head (bs : List Nat) : Except DecErr (Head × List Nat) :=
  match bs with
  | [] => .error .UnexpectedEOF
  | m :: rest =>
    if m = 0xC0 then .ok (.null, rest)
    else if m = 0xC3 then .ok (.boolTrue, rest)
    else if m = 0xC2 then .ok (.boolFalse, rest)
    else if m ≤ 0x7F ∨ (0xF0 ≤ m ∧ m ≤ 0xFF) ∨ m = 0xC8 ∨ m = 0xC9 ∨ m = 0xCA ∨ m = 0xCB then
      (parse_int (m :: rest)).map (fun p => (.int p.1, p.2))
    else if m = 0xC1 then
      (parse_float (m :: rest)).map (fun p => (.float p.1, p.2))
    else if (0x80 ≤ m ∧ m ≤ 0x8F) ∨ m = 0xD0 ∨ m = 0xD1 ∨ m = 0xD2 then
      (parse_string (m :: rest)).map (fun p => (.str p.1, p.2))
    else if (0x90 ≤ m ∧ m ≤ 0x9F) ∨ m = 0xD4 ∨ m = 0xD5 ∨ m = 0xD6 then
      (listSize m rest).map (fun p => (.listHead p.1, p.2))
    else if (0xA0 ≤ m ∧ m ≤ 0xAF) ∨ m = 0xD8 ∨ m = 0xD9 ∨ m = 0xDA then
      (mapSize m rest).map (fun p => (.mapHead p.1, p.2))
    else if (0xB0 ≤ m ∧ m ≤ 0xBF) ∨ m = 0xDC ∨ m = 0xDD then
      (parse_struct_size (m :: rest)).map (fun p => (.structHead p.1, p.2))
    else .error (.UnexpectedMarker "Type Marker" (hexByte m))

theorem except_map_ne_panic {α β : Type} (e : Except DecErr α) (f : α → β)
    (h : e ≠ .error .Panic) : e.map f ≠ .error .Panic := by
  cases e with
  | ok a => simp [Except.map]
  | error e2 => simpa [Except.map] using h

theorem readSignedBE_ne_panic (w : Nat) (bs : List Nat) :
    readSignedBE w bs ≠ .error .Panic := by
  rw [readSignedBE]
  split_ifs <;> simp

theorem parse_int_ne_panic (bs : List Nat) : parse_int bs ≠ .error .Panic := by
  cases bs with
  | nil => simp [parse_int]
  | cons m rest =>
    rw [parse_int]
    split_ifs <;> first | exact readSignedBE_ne_panic _ _ | simp

theorem parse_float_ne_panic (bs : List Nat) : parse_float bs ≠ .error .Panic := by
  cases bs with
  | nil => simp [parse_float]
  | cons m rest =>
    rw [parse_float]
    split_ifs <;> simp

theorem parse_string_ne_panic (bs : List Nat) : parse_string bs ≠ .error .Panic := by
  cases bs with
  | nil => simp [parse_string]
  | cons m rest =>
    rw [parse_string.eq_def]
    dsimp only
    split_ifs <;> (try cases rest) <;> (try dsimp only) <;> (try split_ifs) <;> simp

theorem listSize_ne_panic (m : Nat) (rest : List Nat)
    (h : (0x90 ≤ m ∧ m ≤ 0x9F) ∨ m = 0xD4 ∨ m = 0xD5 ∨ m = 0xD6) :
    listSize m rest ≠ .error .Panic := by
  rw [listSize.eq_def]
  rcases h with hr | rfl | rfl | rfl
  · rw [if_pos hr]; simp
  · cases rest <;> norm_num [marker.LIST_8, marker.LIST_16, marker.LIST_32] <;> simp
  · norm_num [marker.LIST_8, marker.LIST_16, marker.LIST_32]
    split_ifs <;> simp
  · norm_num [marker.LIST_8, marker.LIST_16, marker.LIST_32]
    split_ifs <;> simp

theorem mapSize_ne_panic (m : Nat) (rest : List Nat)
    (h : (0xA0 ≤ m ∧ m ≤ 0xAF) ∨ m = 0xD8 ∨ m = 0xD9 ∨ m = 0xDA) :
    mapSize m rest ≠ .error .Panic := by
  rw [mapSize.eq_def]
  rcases h with hr | rfl | rfl | rfl
  · rw [if_pos hr]; simp
  · cases rest <;> norm_num [marker.MAP_8, marker.MAP_16, marker.MAP_32] <;> simp
  · norm_num [marker.MAP_8, marker.MAP_16, marker.MAP_32]
    split_ifs <;> simp
  · norm_num [marker.MAP_8, marker.MAP_16, marker.MAP_32]
    split_ifs <;> simp

theorem parse_struct_size_ne_panic (bs : List Nat)
    (h : ∃ m rest, bs = m :: rest
      ∧ ((0xB0 ≤ m ∧ m ≤ 0xBF) ∨ m = 0xDC ∨ m = 0xDD)) :
    parse_struct_size bs ≠ .error .Panic := by
  obtain ⟨m, rest, rfl, hm⟩ := h
  rw [parse_struct_size.eq_def]
  dsimp only
  rcases hm with hr | rfl | rfl
  · rw [if_pos hr]; simp
  · cases rest <;> norm_num [marker.STRUCT_8, marker.STRUCT_16] <;> simp
  · norm_num [marker.STRUCT_8, marker.STRUCT_16]
    split_ifs <;> simp

/-- C4: the decoder paths cited by the claim are total and typed: the
`parse_value` dispatch never reaches a panicking arm on any input (its
inner `unreachable!()` arms are provably dead) and every unclassifiable
byte becomes the typed marker-mismatch error carrying what was expected
and what was found: `read_seq` on 0xFE reports LIST versus TINY_INT, and
`parse_value` on a byte no marker arm covers (such as 0xC4) reports
"Type Marker" versus the byte's hex rendering. -/
theorem claim_C4 :
    (∀ bs : List Nat, parse_value_head bs ≠ .error .Panic)
    ∧ (∀ bs : List Nat, read_seq_header bs ≠ .error .Panic)
    ∧ (∀ rest : List Nat, read_seq_header (0xFE :: rest)
        = .error (.UnexpectedMarker "LIST" "TINY_INT"))
    ∧ (∀ rest : List Nat, parse_value_head (0xC4 :: rest)
        = .error (.UnexpectedMarker "Type Marker" "C4")) := by
  refine ⟨?_, ?_, fun rest => rfl, fun rest => rfl⟩
  · intro bs
    cases bs with
    | nil => simp [parse_value_head]
    | cons m rest =>
      rw [parse_value_head]
      split_ifs with h1 h2 h3 h4 h5 h6 h7 h8 h9
      · simp
      · simp
      · simp
      · exact except_map_ne_panic _ _ (parse_int_ne_panic _)
      · exact except_map_ne_panic _ _ (parse_float_ne_panic _)
      · exact except_map_ne_panic _ _ (parse_string_ne_panic _)
      · exact except_map_ne_panic _ _ (listSize_ne_panic m rest h7)
      · exact except_map_ne_panic _ _ (mapSize_ne_panic m rest h8)
      · exact except_map_ne_panic _ _
          (parse_struct_size_ne_panic (m :: rest) ⟨m, rest, rfl, h9⟩)
      · simp
  · intro bs
    cases bs with
    | nil => simp [read_seq_header]
    | cons m rest =>
      rw [read_seq_header.eq_def]
      dsimp only
      split_ifs <;> (try cases rest) <;> simp

/-! ## The dynamic value model (value/mod.rs) and its two byte-level
codecs: `serialize` over `impl Serialize for Value` (value/mod.rs lines
140-183 through serialize/mod.rs), and `from_reader` (value/builder.rs).

`float` carries the 64-bit IEEE-754 bit pattern, the 8 bytes written and
read big-endian; `string` carries the UTF-8 bytes; `map` carries the
BTreeMap as its key-sorted association list. -/

inductive Value where
  | null : Value
  | boolean : Bool → Value
  | integer : Int → Value
  | float : Nat → Value
  | string : List Nat → Value
  | list : List Value → Value
  | map : List (List Nat × Value) → Value
  | struct : Nat → List Value → Value

/-- Model of `Serializer::serialize_bytes` (serialize/mod.rs lines 231-237): a byte
slice is serialized as a LIST whose elements are the bytes, each routed
through `serialize_u64` - it does NOT write the bytes raw. -/
def serialize_bytes (bs : List Nat) : List Nat :=
  serialize_seq bs.length ++ (bs.map emit_u64).flatten

mutual
/-- Model of `impl Serialize for Value` driven by `Serializer` (serialize/mod.rs):
note that the Structure arm builds its header with
`valueStructureHeader` and then hands it to `serialize_bytes`. -/
def serializeValue : Value → List Nat
  | .null => [marker.NULL]
  | .boolean true => [marker.TRUE]
  | .boolean false => [marker.FALSE]
  | .integer v => emit_i64 v
  | .float bits => marker.FLOAT :: toBytesBE 8 bits
  | .string s => emit_str s
  | .list vs => serialize_seq vs.length ++ serializeElems vs
  | .map entries => serialize_map entries.length ++ serializeEntries entries
  | .struct sig fields =>
      serialize_bytes (valueStructureHeader sig fields.length) ++ serializeElems fields

def serializeElems : List Value → List Nat
  | [] => []
  | v :: vs => serializeValue v ++ serializeElems vs

def serializeEntries : List (List Nat × Value) → List Nat
  | [] => []
  | e :: rest => emit_str e.1 ++ serializeValue e.2 ++ serializeEntries rest
end

/-- Byte-wise lexicographic order of UTF-8 strings, the `Ord` a BTreeMap
with String keys sorts by. -/
def lexLtBytes : List Nat → List Nat → Bool
  | [], [] => false
  | [], _ :: _ => true
  | _ :: _, [] => false
  | a :: as2, b :: bs2 => if a < b then true else if b < a then false else lexLtBytes as2 bs2

/-- Model of `BTreeMap::insert` on the sorted-association-list model: keep keys
sorted, last write wins. -/
def mapInsert (k : List Nat) (v : Value) : List (List Nat × Value) → List (List Nat × Value)
  | [] => [(k, v)]
  | (k2, v2) :: rest =>
    if lexLtBytes k k2 then (k, v) :: (k2, v2) :: rest
    else if k = k2 then (k, v) :: rest
    else (k2, v2) :: mapInsert k v rest

/-- The string-payload read of `Builder::read_string`: one ignored-count
`read` (zero padding on a short delivery), then `String::from_utf8`. -/
def builderString (size : Nat) (bs : List Nat) : Except DecErr (Option Value × List Nat) :=
  let p := read_padded size bs
  if utf8Valid p.1 then .ok (some (.string p.1), p.2) else .error .InvalidUTF8

mutual
/-- Model of `Builder::parse` with `read_next` inlined (value/builder.rs lines
48-188).  An empty input is a successful parse that pushed nothing
(`none`).  The catch-all arm of `read_next` is `unreachable!()`, modelled
as `Panic`.  The structural fuel only bounds nesting; `from_reader`
supplies enough for any input. -/
def builderParse : Nat → List Nat → Except DecErr (Option Value × List Nat)
  | 0, _ => .error .UnexpectedEOF
  | _ + 1, [] => .ok (none, [])
  | fuel + 1, m :: rest =>
    if m = marker.NULL then .ok (some .null, rest)
    else if m = marker.TRUE then .ok (some (.boolean true), rest)
    else if m = marker.FALSE then .ok (some (.boolean false), rest)
    else if m ≤ 0x7F then .ok (some (.integer (m : Int)), rest)
    else if 0xF0 ≤ m ∧ m ≤ 0xFF then .ok (some (.integer ((m : Int) - 256)), rest)
    else if m = marker.INT_8 then
      (readSignedBE 1 rest).map (fun p => (some (.integer p.1), p.2))
    else if m = marker.INT_16 then
      (readSignedBE 2 rest).map (fun p => (some (.integer p.1), p.2))
    else if m = marker.INT_32 then
      (readSignedBE 4 rest).map (fun p => (some (.integer p.1), p.2))
    else if m = marker.INT_64 then
      (readSignedBE 8 rest).map (fun p => (some (.integer p.1), p.2))
    else if m = marker.FLOAT then
      if 8 ≤ rest.length then .ok (some (.float (fromBytesBE (rest.take 8))), rest.drop 8)
      else .error .UnexpectedEOF
    else if 0x80 ≤ m ∧ m ≤ 0x8F then builderString (m &&& 0b1111) rest
    else if m = marker.STRING_8 then
      match rest with
      | [] => .error .UnexpectedEOF
      | b :: r => builderString b r
    else if m = marker.STRING_16 then
      if 2 ≤ rest.length then builderString (fromBytesBE (rest.take 2)) (rest.drop 2)
      else .error .UnexpectedEOF
    else if m = marker.STRING_32 then
      if 4 ≤ rest.length then builderString (fromBytesBE (rest.take 4)) (rest.drop 4)
      else .error .UnexpectedEOF
    else if 0x90 ≤ m ∧ m ≤ 0x9F then
      (builderItems fuel (m &&& 0b1111) rest).map (fun p => (some (.list p.1), p.2))
    else if m = marker.LIST_8 then
      match rest with
      | [] => .error .UnexpectedEOF
      | b :: r => (builderItems fuel b r).map (fun p => (some (.list p.1), p.2))
    else if m = marker.LIST_16 then
      if 2 ≤ rest.length then
        (builderItems fuel (fromBytesBE (rest.take 2)) (rest.drop 2)).map
          (fun p => (some (.list p.1), p.2))
      else .error .UnexpectedEOF
    else if m = marker.LIST_32 then
      if 4 ≤ rest.length then
        (builderItems fuel (fromBytesBE (rest.take 4)) (rest.drop 4)).map
          (fun p => (some (.list p.1), p.2))
      else .error .UnexpectedEOF
    else if 0xA0 ≤ m ∧ m ≤ 0xAF then
      (builderMapItems fuel (m &&& 0b1111) rest []).map (fun p => (some (.map p.1), p.2))
    else if m = marker.MAP_8 then
      match rest with
      | [] => .error .UnexpectedEOF
      | b :: r => (builderMapItems fuel b r []).map (fun p => (some (.map p.1), p.2))
    else if m = marker.MAP_16 then
      if 2 ≤ rest.length then
        (builderMapItems fuel (fromBytesBE (rest.take 2)) (rest.drop 2) []).map
          (fun p => (some (.map p.1), p.2))
      else .error .UnexpectedEOF
    else if m = marker.MAP_32 then
      if 4 ≤ rest.length then
        (builderMapItems fuel (fromBytesBE (rest.take 4)) (rest.drop 4) []).map
          (fun p => (some (.map p.1), p.2))
      else .error .UnexpectedEOF
    else if 0xB0 ≤ m ∧ m ≤ 0xBF then
      match rest with
      | [] => .error .UnexpectedEOF
      | s :: r => (builderItems fuel (m &&& 0b1111) r).map
          (fun p => (some (.struct s p.1), p.2))
    else if m = marker.STRUCT_8 then
      match rest with
      | s :: l :: r => (builderItems fuel l r).map (fun p => (some (.struct s p.1), p.2))
      | _ => .error .UnexpectedEOF
    else if m = marker.STRUCT_16 then
      match rest with
      | [] => .error .UnexpectedEOF
      | s :: r =>
        if 2 ≤ r.length then
          (builderItems fuel (fromBytesBE (r.take 2)) (r.drop 2)).map
            (fun p => (some (.struct s p.1), p.2))
        else .error .UnexpectedEOF
    else .error .Panic

/-- The list/struct field loop of `Builder::parse`: parse `count` child
values; a parse that pushes nothing is the UnexpectedEOF of the failed
stack pop. -/
def builderItems : Nat → Nat → List Nat → Except DecErr (List Value × List Nat)
  | _, 0, bs => .ok ([], bs)
  | 0, _ + 1, _ => .error .UnexpectedEOF
  | fuel + 1, count + 1, bs =>
    match builderParse fuel bs with
    | .error e => .error e
    | .ok (none, _) => .error .UnexpectedEOF
    | .ok (some v, r) =>
      (builderItems fuel count r).map (fun p => (v :: p.1, p.2))

/-- The map loop of `Builder::parse`: `count` pairs of parses; as in the
source, the SECOND value of each pair must be the String used as the
key and the first becomes the entry's value (the error payload of the
source's `UnexpectedInput` is a Debug rendering, abbreviated here). -/
def builderMapItems : Nat → Nat → List Nat → List (List Nat × Value) →
    Except DecErr (List (List Nat × Value) × List Nat)
  | _, 0, bs, acc => .ok (acc, bs)
  | 0, _ + 1, _, _ => .error .UnexpectedEOF
  | fuel + 1, count + 1, bs, acc =>
    match builderParse fuel bs with
    | .error e => .error e
    | .ok (none, _) => .error .UnexpectedEOF
    | .ok (some v1, r1) =>
      match builderParse fuel r1 with
      | .error e => .error e
      | .ok (none, _) => .error .UnexpectedEOF
      | .ok (some v2, r2) =>
        match v2 with
        | .string k => builderMapItems fuel count r2 (mapInsert k v1 acc)
        | _ => .error (.UnexpectedInput "Map key" "Value")
end

/-- Model of `from_reader` / `Builder::build` (value/builder.rs lines 9-46): parse
one value from the stream; an empty stack afterwards yields `Null`. -/
def from_reader (bs : List Nat) : Except DecErr Value :=
  match builderParse (2 * bs.length + 2) bs with
  | .error e => .error e
  | .ok (some v, _) => .ok v
  | .ok (none, _) => .ok .null

/-- C1: code-bug evidence for the round-trip claim.  For the repository's
own test value `Structure(0x42, [String("ABC"), Integer(1)])`
(value/tests.rs expects the bytes [0xB2, 0x42, 0x83, 'A', 'B', 'C',
0x01]), the Value serializer instead routes the structure header through
`serialize_bytes`, emitting it as a two-element LIST of integers; decoding
the produced bytes yields `List([Integer(178), Integer(66)])`, not the
original structure, so deserialize(serialize(v)) = v fails. -/
theorem claim_C1_bug :
    serializeValue (Value.struct 0x42 [.string [0x41, 0x42, 0x43], .integer 1])
      = [0x92, 0xC9, 0x00, 0xB2, 0x42, 0x83, 0x41, 0x42, 0x43, 0x01]
    ∧ serializeValue (Value.struct 0x42 [.string [0x41, 0x42, 0x43], .integer 1])
      ≠ [0xB2, 0x42, 0x83, 0x41, 0x42, 0x43, 0x01]
    ∧ from_reader (serializeValue (Value.struct 0x42 [.string [0x41, 0x42, 0x43], .integer 1]))
      = .ok (Value.list [.integer 178, .integer 66])
    ∧ Value.list [Value.integer 178, Value.integer 66]
      ≠ Value.struct 0x42 [.string [0x41, 0x42, 0x43], .integer 1] := by
  refine ⟨rfl, ?_, rfl, ?_⟩
  · have he : serializeValue (Value.struct 0x42 [.string [0x41, 0x42, 0x43], .integer 1])
        = [0x92, 0xC9, 0x00, 0xB2, 0x42, 0x83, 0x41, 0x42, 0x43, 0x01] := rfl
    rw [he]
    simp
  · intro h
    exact Value.noConfusion h

end Packstream
